import Mathlib

/-!
# Kontrolno2: appliances, power sources and rooms

A shallow embedding of `src/Kontrolno2.cpp`.

Modelling choices.

* `float` power values are exact rationals (`ℚ`): `0.05f` is `1/20`, and the
  comparisons of the source are the comparisons of `ℚ`.  The definitions of
  `Appliance` and `Room` do not round.  The section `Rounded` repeats the
  functions that compute with power values with a rounding function applied
  after every arithmetic operation; with `fl32` that is binary32 arithmetic.
* `unsigned` quantities are natural numbers; the forbidden mask is a natural
  number below `2^64`.
* The three classes derived from `Appliance` are one record with a `Variant`
  payload; the virtual functions `getPower` and `clone` dispatch on it.
* The `PowerSource*` of an appliance is one of three values: the null pointer,
  the room that holds the appliance, or a room object that no longer exists.
* The array `sockets` of a room, of which the first `socketCnt` entries are in
  use, is the list of these entries (`socketCnt` is its length) together with
  `slots`, the number of entries that were allocated (`0` for a null pointer).
* A call whose behaviour the language leaves undefined (a write outside the
  array, a call through a pointer to an object that is gone or was never set)
  has the result `none`.  Allocation failure is not modelled.
-/

namespace Kontrolno2

/-! ## Data model -/

/-- The `enum class Type` of the source. -/
inductive ApplianceType where
  | Heater
  | TV
  | Fridge
  deriving DecidableEq, Repr

/-- The numeric value of an enumerator: `Heater = 1`, `TV = Heater << 1`,
`Fridge = TV << 1`. -/
def ApplianceType.toNat : ApplianceType → Nat
  | .Heater => 1
  | .TV => 1 <<< 1
  | .Fridge => (1 <<< 1) <<< 1

/-- The data a derived class adds to `Appliance`: nothing for `Heater`,
`brightness` for `TV`, `compressors` for `Fridge`. -/
inductive Variant where
  | Heater
  | TV (brightness : Nat)
  | Fridge (compressors : Nat)
  deriving DecidableEq, Repr

/-- The value of the member `PowerSource* source`: `null` is `nullptr`, `room`
points to the room whose `sockets` hold the appliance, `stale` points to a room
object that has been destroyed. -/
inductive Source where
  | null
  | room
  | stale
  deriving DecidableEq, Repr

/-- An object of class `Appliance` (with the members of its derived class). -/
structure Appliance where
  brand : String
  model : String
  SN : String
  consumption : ℚ
  isOn : Bool
  source : Source
  variant : Variant
  deriving DecidableEq

/-- An object of class `Room`. -/
structure Room where
  name : String
  sockets : List Appliance
  slots : Nat
  maxSockets : Nat
  maxPower : ℚ
  powerDown : Bool
  forbidden : Nat
  deriving DecidableEq

/-! ## Appliance -/

namespace Appliance

/-- The member `type`, fixed by the constructor of the derived class. -/
def getType (a : Appliance) : ApplianceType :=
  match a.variant with
  | .Heater => .Heater
  | .TV _ => .TV
  | .Fridge _ => .Fridge

/-- `Appliance::getSerial`. -/
def getSerial (a : Appliance) : String := a.SN

/-- `Appliance::isON`. -/
def isON (a : Appliance) : Bool := a.isOn

/-- The virtual `getPower`: `Appliance::getPower` for a heater, and the
overrides `TV::getPower` and `Fridge::getPower`. -/
def getPower (a : Appliance) : ℚ :=
  match a.variant with
  | .Heater => if a.isOn then a.consumption else 0
  | .TV brightness => if a.isOn then a.consumption * brightness / 100 else 1 / 20
  | .Fridge compressors => if a.isOn then compressors * a.consumption else 0

/-- The virtual `clone`: the copy constructor `Appliance(const Appliance&)`
followed by the member-wise copy of the derived part. -/
def clone (a : Appliance) : Appliance :=
  { brand := a.brand, model := a.model, SN := a.SN, consumption := a.consumption,
    isOn := false, source := .null, variant := a.variant }

/-- The test `(!s || !s[0])` on a C string; `none` is the null pointer. -/
def badText (s : Option String) : Bool :=
  match s with
  | none => true
  | some t => t.isEmpty

/-- The constructor `Appliance::Appliance(Type, br, mod, sn, power)`, as called
by the constructor of a derived class with the payload `v`; `none` is the
exception `std::invalid_argument`. -/
def mk? (v : Variant) (br mod sn : Option String) (power : ℚ) : Option Appliance :=
  if badText br || badText mod || badText sn || decide (power ≤ 0) then none
  else some { brand := br.getD "", model := mod.getD "", SN := sn.getD "",
              consumption := power, isOn := false, source := .null, variant := v }

/-- `Heater::Heater`. -/
def mkHeater (br mod sn : Option String) (power : ℚ) : Option Appliance :=
  mk? .Heater br mod sn power

/-- `TV::TV`: the base constructor, then the check of the brightness. -/
def mkTV (br mod sn : Option String) (power : ℚ) (initialBrightness : Nat) :
    Option Appliance :=
  match mk? (.TV initialBrightness) br mod sn power with
  | none => none
  | some a => if initialBrightness > 100 then none else some a

/-- `Fridge::Fridge`. -/
def mkFridge (br mod sn : Option String) (power : ℚ) (comp : Nat) : Option Appliance :=
  mk? (.Fridge comp) br mod sn power

/-- `Appliance::turnOn` on an appliance that no room holds.  With a null
`source` the first test returns `false`; any other source is an object outside
this model. -/
def turnOn (a : Appliance) : Option (Bool × Appliance) :=
  if a.isOn || a.source == .null then some (false, a) else none

end Appliance

/-! ## Room -/

namespace Room

/-- The member `socketCnt`. -/
def socketCnt (r : Room) : Nat := r.sockets.length

/-- `Room::getCurrentConsumption`: the loop `total += sockets[i]->getPower()`. -/
def getCurrentConsumption (r : Room) : ℚ :=
  r.sockets.foldl (fun total a => total + a.getPower) 0

/-- `Room::getMaxConsumption`. -/
def getMaxConsumption (r : Room) : ℚ := r.maxPower

/-- `Room::removeAllAppliances`. -/
def removeAllAppliances (r : Room) : Room :=
  { r with sockets := [], slots := 0, maxSockets := 0 }

/-- `Room::consumptionChanged`, the trip algorithm. -/
def consumptionChanged (r : Room) : Room :=
  let power := r.getCurrentConsumption
  if power > r.maxPower then
    { r.removeAllAppliances with powerDown := true }
  else r

/-- `Room::setName`; `none` is the null pointer. -/
def setName (r : Room) (name : Option String) : Room :=
  { r with name := (name.getD "").take 30 }

/-- The constructor `Room::Room(name, sockets, maxPower)`; `none` is the
exception `std::invalid_argument`. -/
def mk? (name : Option String) (sockets : Nat) (maxPower : ℚ) : Option Room :=
  if maxPower ≤ 0 then none
  else some (setName { name := "", sockets := [], slots := sockets, maxSockets := sockets,
                       maxPower := maxPower, powerDown := false, forbidden := 0 } name)

/-- `Room::addForbidden`. -/
def addForbidden (r : Room) (t : ApplianceType) : Room :=
  { r with forbidden := r.forbidden ||| t.toNat }

/-- `Room::clearForbidden`: `forbidden &= ~(uint64_t)t`. -/
def clearForbidden (r : Room) (t : ApplianceType) : Room :=
  { r with forbidden := r.forbidden &&& ((2 ^ 64 - 1) ^^^ t.toNat) }

/-- The condition of `Room::operator+=`. -/
def admits (r : Room) (app : Appliance) : Bool :=
  !r.powerDown && decide (r.socketCnt < r.maxSockets) &&
    !(decide ((r.forbidden &&& app.getType.toNat) ≠ 0))

/-- `Room::operator+=`.  `setSource(*toAdd)` sets the source of the clone and
calls `consumptionChanged` on the room, which does not hold the clone yet; then
the clone is written to `sockets[socketCnt++]`. -/
def addAppliance (r : Room) (app : Appliance) : Option Room :=
  if r.admits app then
    let toAdd := { app.clone with source := Source.room }
    let r1 := r.consumptionChanged
    if r1.socketCnt < r1.slots then
      some { r1 with sockets := r1.sockets ++ [toAdd] }
    else none
  else some r

/-- The loop of `Room::findApp` over `sockets[i..]`. -/
def findFrom (sn : String) : List Appliance → Nat → Option Nat
  | [], _ => none
  | a :: rest, i => if a.getSerial = sn then some i else findFrom sn rest (i + 1)

/-- `Room::findApp`; `none` is the null pointer. -/
def findApp (r : Room) (sn : Option String) : Nat :=
  match sn with
  | none => r.maxSockets
  | some s => (findFrom s r.sockets 0).getD r.maxSockets

/-- `Room::operator[]`: the held appliance, or `none` for the null pointer. -/
def lookup (r : Room) (sn : Option String) : Option Appliance :=
  let pos := r.findApp sn
  if pos < r.socketCnt then r.sockets[pos]? else none

/-- `Room::operator-=`.  The last entry is moved to `pos`, then
`clearSource(*toRemove)` runs `Appliance::setSource(nullptr)`, which calls
`consumptionChanged` on the source of the removed appliance. -/
def removeAppliance (r : Room) (appSerial : Option String) : Option Room :=
  let pos := r.findApp appSerial
  if pos < r.socketCnt then
    match r.sockets[pos]?, r.sockets.getLast? with
    | some toRemove, some last =>
      let r1 := { r with sockets := (r.sockets.set pos last).dropLast }
      match toRemove.source with
      | .null => some r1
      | .room => some r1.consumptionChanged
      | .stale => none
    | _, _ => none
  else some r

/-- `Appliance::turnOn` on the appliance in `sockets[i]`.  The source of a held
appliance is this room, so `source->getCurrentConsumption()` is the total of this
room and `source->consumptionChanged()` acts on it; a stale source has no
defined result. -/
def turnOn (r : Room) (i : Nat) : Option (Bool × Room) :=
  match r.sockets[i]? with
  | none => none
  | some a =>
    if a.isOn || a.source == .null then some (false, r)
    else if a.source == .stale then none
    else
      let current := r.getCurrentConsumption - a.getPower
      let max := r.getMaxConsumption
      let a1 := { a with isOn := true }
      if current + a1.getPower > max then some (false, r)
      else some (true, { r with sockets := r.sockets.set i a1 }.consumptionChanged)

/-- `Appliance::turnOff` on the appliance in `sockets[i]`; it calls
`source->consumptionChanged()` without a test of `source`. -/
def turnOff (r : Room) (i : Nat) : Option (Bool × Room) :=
  match r.sockets[i]? with
  | none => none
  | some a =>
    if !a.isOn then some (false, r)
    else
      match a.source with
      | .room =>
        some (true, { r with sockets := r.sockets.set i { a with isOn := false } }.consumptionChanged)
      | _ => none

/-- `TV::setBrightness` on the appliance in `sockets[i]`, which has to be a TV. -/
def setBrightness (r : Room) (i : Nat) (br : Nat) : Option Room :=
  match r.sockets[i]? with
  | none => none
  | some a =>
    match a.variant with
    | .TV _ =>
      if br ≤ 100 then
        let r1 := { r with sockets := r.sockets.set i { a with variant := .TV br } }
        match a.source with
        | .null => some r1
        | .room => some r1.consumptionChanged
        | .stale => none
      else some r
    | _ => none

/-- The loop of `Room::copyAppliances` from index `i` on: `*this += *app[i]`,
then `this->sockets[i]->turnOn()` when `app[i]` is on. -/
def copyLoop : Room → List Appliance → Nat → Option Room
  | r, [], _ => some r
  | r, a :: rest, i =>
    match r.addAppliance a with
    | none => none
    | some r1 =>
      if a.isON then
        match r1.turnOn i with
        | none => none
        | some (_, r2) => copyLoop r2 rest (i + 1)
      else copyLoop r1 rest (i + 1)

/-- `Room::copyAppliances`. -/
def copyAppliances (r : Room) (app : List Appliance) : Option Room :=
  copyLoop { r with sockets := [], slots := r.maxSockets } app 0

/-- The copy constructor `Room::Room(const Room&)`. -/
def copy (other : Room) : Option Room :=
  let r0 : Room :=
    { name := other.name, sockets := [], slots := 0, maxSockets := other.maxSockets,
      maxPower := other.maxPower, powerDown := other.powerDown, forbidden := other.forbidden }
  if r0.maxSockets ≠ 0 then r0.copyAppliances other.sockets else some r0

/-- `Room::swap` as `operator=` uses it: the result is the new state of `this`.
The appliances taken from `other` keep pointing to `other`, which is the local
copy that `operator=` destroys on return. -/
def swap (r other : Room) : Room :=
  { name := other.name,
    sockets := other.sockets.map
      (fun a => { a with source := if a.source = .room then .stale else a.source }),
    slots := other.slots,
    maxSockets := r.maxSockets,
    maxPower := other.maxPower,
    powerDown := other.powerDown,
    forbidden := other.forbidden }

/-- `Room::operator=` from a room that is another object. -/
def assign (r other : Room) : Option Room :=
  match copy other with
  | none => none
  | some c => some (r.swap c)

end Room

/-! ## Rounded arithmetic -/

namespace Rounded

/-- The virtual `getPower` with every product and quotient rounded by `rnd`; the
`unsigned` operands and the literals `100` and `0.05f` are converted first. -/
def getPower (rnd : ℚ → ℚ) (a : Appliance) : ℚ :=
  match a.variant with
  | .Heater => if a.isOn then a.consumption else 0
  | .TV brightness =>
    if a.isOn then rnd (rnd (a.consumption * rnd brightness) / rnd 100) else rnd (1 / 20)
  | .Fridge compressors => if a.isOn then rnd (rnd compressors * a.consumption) else 0

/-- `Room::getCurrentConsumption` with every `total += ...` rounded by `rnd`. -/
def getCurrentConsumption (rnd : ℚ → ℚ) (r : Room) : ℚ :=
  r.sockets.foldl (fun total a => rnd (total + getPower rnd a)) 0

/-- `Room::consumptionChanged` over the rounded total. -/
def consumptionChanged (rnd : ℚ → ℚ) (r : Room) : Room :=
  let power := getCurrentConsumption rnd r
  if power > r.maxPower then
    { r.removeAllAppliances with powerDown := true }
  else r

/-- `Room::operator+=` over the rounded total. -/
def addAppliance (rnd : ℚ → ℚ) (r : Room) (app : Appliance) : Option Room :=
  if r.admits app then
    let toAdd := { app.clone with source := Source.room }
    let r1 := consumptionChanged rnd r
    if r1.socketCnt < r1.slots then
      some { r1 with sockets := r1.sockets ++ [toAdd] }
    else none
  else some r

/-- `Appliance::turnOn` on the appliance in `sockets[i]`, with the difference
`current` and the sum `current + getPower()` rounded by `rnd`. -/
def turnOn (rnd : ℚ → ℚ) (r : Room) (i : Nat) : Option (Bool × Room) :=
  match r.sockets[i]? with
  | none => none
  | some a =>
    if a.isOn || a.source == .null then some (false, r)
    else if a.source == .stale then none
    else
      let current := rnd (getCurrentConsumption rnd r - getPower rnd a)
      let max := r.getMaxConsumption
      let a1 := { a with isOn := true }
      if rnd (current + getPower rnd a1) > max then some (false, r)
      else some (true, consumptionChanged rnd { r with sockets := r.sockets.set i a1 })

/-- The loop of `Room::copyAppliances` over the rounded operations. -/
def copyLoop (rnd : ℚ → ℚ) : Room → List Appliance → Nat → Option Room
  | r, [], _ => some r
  | r, a :: rest, i =>
    match addAppliance rnd r a with
    | none => none
    | some r1 =>
      if a.isON then
        match turnOn rnd r1 i with
        | none => none
        | some (_, r2) => copyLoop rnd r2 rest (i + 1)
      else copyLoop rnd r1 rest (i + 1)

/-- `Room::copyAppliances` over the rounded operations. -/
def copyAppliances (rnd : ℚ → ℚ) (r : Room) (app : List Appliance) : Option Room :=
  copyLoop rnd { r with sockets := [], slots := r.maxSockets } app 0

/-- The copy constructor `Room::Room(const Room&)` over the rounded operations. -/
def copy (rnd : ℚ → ℚ) (other : Room) : Option Room :=
  let r0 : Room :=
    { name := other.name, sockets := [], slots := 0, maxSockets := other.maxSockets,
      maxPower := other.maxPower, powerDown := other.powerDown, forbidden := other.forbidden }
  if r0.maxSockets ≠ 0 then copyAppliances rnd r0 other.sockets else some r0

end Rounded

/-! ## Calls and reachable states -/

/-- What the constructors guarantee of an appliance object: non-empty texts, a
positive rated power and, for a TV, a brightness of at most 100 (which
`setBrightness` keeps). -/
def Appliance.wellFormed (a : Appliance) : Prop :=
  a.brand ≠ "" ∧ a.model ≠ "" ∧ a.SN ≠ "" ∧ 0 < a.consumption ∧
    ∀ b, a.variant = Variant.TV b → b ≤ 100

/-- One call on a room, or on the appliance in one of its sockets. -/
inductive Op where
  | addAppliance (app : Appliance)
  | removeAppliance (appSerial : Option String)
  | turnOn (i : Nat)
  | turnOff (i : Nat)
  | setBrightness (i : Nat) (br : Nat)
  | addForbidden (t : ApplianceType)
  | clearForbidden (t : ApplianceType)
  | setName (name : Option String)

namespace Op

/-- The room after the call; `none` when the call has no defined result. -/
def run : Op → Room → Option Room
  | addAppliance app, r => r.addAppliance app
  | removeAppliance appSerial, r => r.removeAppliance appSerial
  | turnOn i, r => (r.turnOn i).map Prod.snd
  | turnOff i, r => (r.turnOff i).map Prod.snd
  | setBrightness i br, r => r.setBrightness i br
  | addForbidden t, r => some (r.addForbidden t)
  | clearForbidden t, r => some (r.clearForbidden t)
  | setName name, r => some (r.setName name)

/-- The appliance passed to `operator+=` is an object a constructor made. -/
def wellFormed : Op → Prop
  | addAppliance app => app.wellFormed
  | _ => True

/-- The calls `addAppliance`, `removeAppliance`, `turnOn`, `turnOff` and
`setBrightness`. -/
def basic : Op → Prop
  | addAppliance _ => True
  | removeAppliance _ => True
  | turnOn _ => True
  | turnOff _ => True
  | setBrightness _ _ => True
  | _ => False

end Op

/-- The rooms reached from a newly constructed room by calls that `ok` allows. -/
inductive ReachableVia (ok : Room → Op → Prop) : Room → Prop where
  | init (name : Option String) (sockets : Nat) (maxPower : ℚ) (r : Room) :
      Room.mk? name sockets maxPower = some r → ReachableVia ok r
  | step (r : Room) (op : Op) (r' : Room) :
      ReachableVia ok r → ok r op → op.run r = some r' → ReachableVia ok r'

/-- The rooms reached from newly constructed rooms by calls, copy construction
and assignment from another reached room. -/
inductive Reachable : Room → Prop where
  | init (name : Option String) (sockets : Nat) (maxPower : ℚ) (r : Room) :
      Room.mk? name sockets maxPower = some r → Reachable r
  | step (r : Room) (op : Op) (r' : Room) :
      Reachable r → op.wellFormed → op.run r = some r' → Reachable r'
  | copy (r r' : Room) : Reachable r → r.copy = some r' → Reachable r'
  | assign (r other r' : Room) :
      Reachable r → Reachable other → r.assign other = some r' → Reachable r'

/-- The calls of `Op.basic` with a constructed appliance. -/
def basicCall (_ : Room) (op : Op) : Prop := op.wellFormed ∧ op.basic

/-- Any call with a constructed appliance whose serial number, for
`addAppliance`, no held appliance has. -/
def freshCall (r : Room) (op : Op) : Prop :=
  op.wellFormed ∧ ∀ app, op = Op.addAppliance app → app.SN ∉ r.sockets.map Appliance.getSerial

/-- A sequence of `addAppliance` calls, one after the other. -/
def addAll : Room → List Appliance → Option Room
  | r, [] => some r
  | r, app :: rest =>
    match r.addAppliance app with
    | none => none
    | some r1 => addAll r1 rest

/-- `Appliance::turnOff` on an appliance that no room holds: it returns `false`
when the appliance is off; when it is on, the source is called, which is null
or an object outside this model. -/
def Appliance.turnOff (a : Appliance) : Option (Bool × Appliance) :=
  if !a.isOn then some (false, a) else none

/-- `TV::setBrightness` on a TV that no room holds; a source that is not null is
an object outside this model. -/
def Appliance.setBrightness (a : Appliance) (br : Nat) : Option Appliance :=
  match a.variant with
  | .TV _ =>
    if br ≤ 100 then
      if a.source == Source.null then some { a with variant := Variant.TV br } else none
    else some a
  | _ => none

/-- The appliance that `Room::copyAppliances` makes of `a`: a clone attached to
the new room and, when `a` is on, switched on. -/
def Appliance.copied (a : Appliance) : Appliance :=
  { a.clone with isOn := a.isOn, source := Source.room }

/-- The tripped flag is not cleared and a capacity of zero stays zero. -/
def Keeps (r r' : Room) : Prop :=
  (r.powerDown = true → r'.powerDown = true) ∧ (r.maxSockets = 0 → r'.maxSockets = 0)

/-- The members of a room other than the socket list are the same. -/
def SameFrame (r r' : Room) : Prop :=
  r'.name = r.name ∧ r'.slots = r.slots ∧ r'.maxSockets = r.maxSockets ∧
    r'.maxPower = r.maxPower ∧ r'.powerDown = r.powerDown ∧ r'.forbidden = r.forbidden

/-- A tripped room holds no appliance. -/
def TrippedEmpty (r : Room) : Prop := r.powerDown = true → r.sockets = []

/-- No two held appliances have the same serial number. -/
def SerialsDistinct (r : Room) : Prop := (r.sockets.map Appliance.getSerial).Nodup

/-! ## Sample objects -/

/-- The heater of `main`, rated 2. -/
def sampleHeater : Appliance :=
  { brand := "Peshy", model := "Mega heat", SN := "P MH140-7765d", consumption := 2,
    isOn := false, source := .null, variant := .Heater }

/-- The TV of `main`, rated 1/4, brightness 100. -/
def sampleTV : Appliance :=
  { brand := "Sony", model := "Mony", SN := "SN123", consumption := 1 / 4,
    isOn := false, source := .null, variant := .TV 100 }

/-- A room of five sockets and budget 21/10 that holds the heater of `main`, off. -/
def sampleRoom : Room :=
  { name := "Bedroom", sockets := [{ sampleHeater with source := .room }], slots := 5,
    maxSockets := 5, maxPower := 21 / 10, powerDown := false, forbidden := 0 }

/-- The room `sampleRoom` with its heater on. -/
def sampleRoomOn : Room :=
  { sampleRoom with sockets := [{ sampleHeater with source := .room, isOn := true }] }

/-- A room of two sockets and budget 1/25 that holds the TV of `main`, off: the
standby draw 1/20 of the TV is above the budget. -/
def overRoom : Room :=
  { name := "Closet", sockets := [{ sampleTV with source := .room }], slots := 2,
    maxSockets := 2, maxPower := 1 / 25, powerDown := false, forbidden := 0 }

/-- The empty room that `overRoom` starts from. -/
def emptyOverRoom : Room :=
  { overRoom with sockets := [] }

/-- The room `overRoom` after a trip. -/
def trippedRoom : Room :=
  { name := "Closet", sockets := [], slots := 0, maxSockets := 0, maxPower := 1 / 25,
    powerDown := true, forbidden := 0 }

/-- The empty room that `sampleRoom` starts from. -/
def emptySampleRoom : Room :=
  { sampleRoom with sockets := [] }

/-- The room `sampleRoom` after its heater was added a second time. -/
def dupRoom : Room :=
  { sampleRoom with sockets := [{ sampleHeater with source := .room },
                                { sampleHeater with source := .room }] }

/-- The room `sampleRoom` after the TV of `main` was added. -/
def twoRoom : Room :=
  { sampleRoom with sockets := [{ sampleHeater with source := .room },
                                { sampleTV with source := .room }] }

/-- A new room of one socket and budget 1. -/
def hallRoom : Room :=
  { name := "Hall", sockets := [], slots := 1, maxSockets := 1, maxPower := 1,
    powerDown := false, forbidden := 0 }

/-- The room `hallRoom` after the assignment `hallRoom = twoRoom`. -/
def hallAssigned : Room :=
  { name := "Bedroom", sockets := [{ sampleHeater with source := .stale },
                                   { sampleTV with source := .stale }],
    slots := 5, maxSockets := 1, maxPower := 21 / 10, powerDown := false, forbidden := 0 }

/-- A fridge rated 3/10 with no compressor, as `Fridge("Polar", "Frost", "FR-0",
0.3f, 0)` makes it. -/
def sampleFridge0 : Appliance :=
  { brand := "Polar", model := "Frost", SN := "FR-0", consumption := 3 / 10,
    isOn := false, source := .null, variant := .Fridge 0 }

/-- The TV of `main` with brightness 0. -/
def dimTV : Appliance :=
  { sampleTV with variant := .TV 0 }

/-- A new room of two sockets and budget 2. -/
def denRoom0 : Room :=
  { name := "Den", sockets := [], slots := 2, maxSockets := 2, maxPower := 2,
    powerDown := false, forbidden := 0 }

/-- The room `denRoom0` after `dimTV` was added. -/
def denRoom1 : Room :=
  { denRoom0 with sockets := [{ dimTV with source := .room }] }

/-- The room `denRoom1` after its TV was switched on. -/
def denRoom2 : Room :=
  { denRoom0 with sockets := [{ dimTV with source := .room, isOn := true }] }

/-- The room `denRoom2` after the heater of `main` was added. -/
def denRoom3 : Room :=
  { denRoom0 with sockets := [{ dimTV with source := .room, isOn := true },
                              { sampleHeater with source := .room }] }

/-- The room `denRoom3` after its heater was switched on: the TV draws 0 and the
heater 2, which is the budget. -/
def denRoom : Room :=
  { denRoom0 with sockets := [{ dimTV with source := .room, isOn := true },
                              { sampleHeater with source := .room, isOn := true }] }

/-- The room `denRoom` after a trip. -/
def denTripped : Room :=
  { denRoom0 with sockets := [], slots := 0, maxSockets := 0, powerDown := true }

theorem foldl_add_eq_sum (f : Appliance → ℚ) (l : List Appliance) (init : ℚ) :
    l.foldl (fun total a => total + f a) init = init + (l.map f).sum := by
  induction l generalizing init with
  | nil => simp
  | cons a rest ih => simp [ih, add_assoc]

theorem getCurrentConsumption_eq_sum (r : Room) :
    r.getCurrentConsumption = (r.sockets.map Appliance.getPower).sum := by
  simp [Room.getCurrentConsumption, foldl_add_eq_sum]

theorem sum_set (l : List ℚ) (i : Nat) (x y : ℚ) (h : l[i]? = some x) :
    (l.set i y).sum = l.sum - x + y := by
  induction l generalizing i with
  | nil => simp at h
  | cons c rest ih =>
    cases i with
    | zero =>
      simp at h
      subst h
      simp [add_comm]
    | succ j =>
      simp at h
      rw [List.set_cons_succ, List.sum_cons, List.sum_cons, ih j h]
      ring

theorem sum_map_set (f : Appliance → ℚ) (l : List Appliance) (i : Nat) (a b : Appliance)
    (h : l[i]? = some a) :
    ((l.set i b).map f).sum = (l.map f).sum - f a + f b := by
  rw [List.map_set]
  apply sum_set
  simp [h]

theorem consumptionChanged_of_le (r : Room) (h : r.getCurrentConsumption ≤ r.maxPower) :
    r.consumptionChanged = r := by
  simp [Room.consumptionChanged, not_lt.mpr h]

theorem consumptionChanged_of_gt (r : Room) (h : r.getCurrentConsumption > r.maxPower) :
    r.consumptionChanged = { r.removeAllAppliances with powerDown := true } := by
  simp [Room.consumptionChanged, h]

/-- The total after the appliance in `sockets[i]` is replaced. -/
theorem getCurrentConsumption_set (r : Room) (i : Nat) (a b : Appliance)
    (h : r.sockets[i]? = some a) :
    Room.getCurrentConsumption { r with sockets := r.sockets.set i b } =
      r.getCurrentConsumption - a.getPower + b.getPower := by
  rw [getCurrentConsumption_eq_sum, getCurrentConsumption_eq_sum]
  exact sum_map_set _ _ _ _ _ h

/-- The result of `turnOn` on a held appliance that is off and attached to its room. -/
theorem turnOn_attached_off (r : Room) (i : Nat) (a : Appliance)
    (h : r.sockets[i]? = some a) (hoff : a.isOn = false) (hsrc : a.source = .room) :
    r.turnOn i =
      if r.getCurrentConsumption - a.getPower + Appliance.getPower { a with isOn := true }
          > r.getMaxConsumption then some (false, r)
      else some (true, { r with sockets := r.sockets.set i { a with isOn := true } }) := by
  obtain ⟨brand, model, SN, consumption, isOn, source, variant⟩ := a
  simp only at hoff hsrc
  subst hoff hsrc
  have hset := getCurrentConsumption_set r i _
    { brand := brand, model := model, SN := SN, consumption := consumption, isOn := true,
      source := Source.room, variant := variant } h
  by_cases hc : r.getCurrentConsumption
      - Appliance.getPower { brand := brand, model := model, SN := SN, consumption := consumption,
                             isOn := false, source := Source.room, variant := variant }
      + Appliance.getPower { brand := brand, model := model, SN := SN, consumption := consumption,
                             isOn := true, source := Source.room, variant := variant }
      > r.getMaxConsumption
  · simp [Room.turnOn, h, hc]
  · have hcc := consumptionChanged_of_le _ (hset ▸ not_lt.mp hc)
    simp only [Room.turnOn, h, if_neg hc]
    simp [hcc]

/-! ## The claims -/

/-- C2: a `turnOn` that returns `false` leaves the room, with the appliance in
it, as it was (so it does not trip the room), and so does `turnOn` on an
appliance that no room holds; `turnOn` returns `false` with the state unchanged
when the appliance is already on, when its source is null, and when the budget
check fails. -/
theorem turnOn_false_leaves_state (r r' : Room) (i : Nat) (a a' : Appliance) :
    (r.turnOn i = some (false, r') → r' = r) ∧
    (a.turnOn = some (false, a') → a' = a) ∧
    (a.source = Source.null → a.turnOn = some (false, a)) ∧
    (∀ x, r.sockets[i]? = some x → x.source ≠ Source.stale →
      (x.isOn = true ∨ x.source = Source.null ∨
        r.getCurrentConsumption - x.getPower + Appliance.getPower { x with isOn := true }
          > r.getMaxConsumption) →
      r.turnOn i = some (false, r)) := by
  refine ⟨?_, ?_, ?_, ?_⟩
  · intro h
    unfold Room.turnOn at h
    cases hx : r.sockets[i]? with
    | none => simp [hx] at h
    | some x =>
      simp only [hx] at h
      split_ifs at h <;> simp_all
  · intro h
    unfold Appliance.turnOn at h
    split_ifs at h
    simp_all
  · intro h
    simp [Appliance.turnOn, h]
  · intro x hx hstale hcause
    unfold Room.turnOn
    simp only [hx]
    by_cases h1 : (x.isOn || x.source == Source.null) = true
    · simp [h1]
    · have h1a : x.isOn = false := by
        cases hon : x.isOn <;> simp_all
      have h1b : x.source ≠ Source.null := by
        intro hn
        simp [hn] at h1
      have h2 : (x.source == Source.stale) = false := by simpa using hstale
      rcases hcause with hc | hc | hc
      · simp [hc] at h1a
      · exact absurd hc h1b
      · rw [if_neg h1]
        simp only [h2]
        simp [hc]

theorem turnOn_false_leaves_state_witness :
    sampleRoomOn.turnOn 0 = some (false, sampleRoomOn) ∧ sampleRoomOn = sampleRoomOn :=
  ⟨by simp [Room.turnOn, sampleRoomOn, sampleRoom, sampleHeater],
    (turnOn_false_leaves_state sampleRoomOn sampleRoomOn 0 sampleHeater sampleHeater).1
      (by simp [Room.turnOn, sampleRoomOn, sampleRoom, sampleHeater])⟩

theorem sampleHeater_wellFormed : sampleHeater.wellFormed := by
  refine ⟨by decide, by decide, by decide, by norm_num [sampleHeater], ?_⟩
  intro b hb
  simp [sampleHeater] at hb

theorem sampleTV_wellFormed : sampleTV.wellFormed := by
  refine ⟨by decide, by decide, by decide, by norm_num [sampleTV], ?_⟩
  intro b hb
  simp [sampleTV] at hb
  omega

theorem mk_emptyOverRoom : Room.mk? (some "Closet") 2 (1 / 25) = some emptyOverRoom := by
  decide!

theorem add_emptyOverRoom : emptyOverRoom.addAppliance sampleTV = some overRoom := by
  decide!

/-- C4, at the failing input: the room `Room("Closet", 2, 0.04f)` after
`+= TV("Sony", "Mony", "SN123", 0.25f, 100)` is reached by one `addAppliance`,
is not tripped, and draws 1/20, which is above its budget 1/25. -/
theorem untripped_room_over_budget :
    ReachableVia basicCall overRoom ∧ overRoom.powerDown = false ∧
      overRoom.getCurrentConsumption = 1 / 20 ∧ overRoom.getMaxConsumption = 1 / 25 ∧
      ¬ overRoom.getCurrentConsumption ≤ overRoom.getMaxConsumption := by
  refine ⟨?_, rfl, ?_, rfl, ?_⟩
  · exact ReachableVia.step emptyOverRoom (Op.addAppliance sampleTV) overRoom
      (ReachableVia.init _ _ _ _ mk_emptyOverRoom)
      ⟨sampleTV_wellFormed, trivial⟩ add_emptyOverRoom
  · norm_num [getCurrentConsumption_eq_sum, overRoom, sampleTV, Appliance.getPower]
  · norm_num [getCurrentConsumption_eq_sum, Room.getMaxConsumption, overRoom, sampleTV,
      Appliance.getPower]

theorem admits_iff (r : Room) (app : Appliance) :
    r.admits app = true ↔
      (r.powerDown = false ∧ r.socketCnt < r.maxSockets ∧
        r.forbidden &&& app.getType.toNat = 0) := by
  simp [Room.admits, and_assoc]

theorem keeps_refl (r : Room) : Keeps r r := ⟨id, id⟩

theorem keeps_consumptionChanged (r r0 : Room) (hp : r0.powerDown = r.powerDown)
    (hm : r0.maxSockets = r.maxSockets) : Keeps r r0.consumptionChanged := by
  unfold Room.consumptionChanged
  simp only
  split_ifs
  · exact ⟨fun _ => rfl, fun _ => rfl⟩
  · exact ⟨fun h => hp ▸ h, fun h => hm ▸ h⟩

theorem keeps_same (r r0 : Room) (hp : r0.powerDown = r.powerDown)
    (hm : r0.maxSockets = r.maxSockets) : Keeps r r0 :=
  ⟨fun h => hp ▸ h, fun h => hm ▸ h⟩

theorem addAppliance_keeps (r r' : Room) (app : Appliance)
    (h : r.addAppliance app = some r') : Keeps r r' := by
  simp only [Room.addAppliance] at h
  split_ifs at h with h1 h2
  · simp only [Option.some.injEq] at h
    subst h
    have hk := keeps_consumptionChanged r r rfl rfl
    exact ⟨hk.1, hk.2⟩
  · simp only [Option.some.injEq] at h
    subst h
    exact keeps_refl r

theorem removeAppliance_keeps (r r' : Room) (sn : Option String)
    (h : r.removeAppliance sn = some r') : Keeps r r' := by
  unfold Room.removeAppliance at h
  simp only at h
  split_ifs at h with h1
  · split at h
    · split at h
      · cases h
        exact keeps_same _ _ rfl rfl
      · cases h
        exact keeps_consumptionChanged _ _ rfl rfl
      · cases h
    · cases h
  · cases h
    exact keeps_refl r

theorem turnOn_keeps (r r' : Room) (i : Nat) (b : Bool)
    (h : r.turnOn i = some (b, r')) : Keeps r r' := by
  unfold Room.turnOn at h
  split at h
  · cases h
  · simp only at h
    split_ifs at h
    · cases h
      exact keeps_refl r
    · cases h
      exact keeps_refl r
    · cases h
      exact keeps_consumptionChanged _ _ rfl rfl

theorem turnOff_keeps (r r' : Room) (i : Nat) (b : Bool)
    (h : r.turnOff i = some (b, r')) : Keeps r r' := by
  unfold Room.turnOff at h
  split at h
  · cases h
  · split_ifs at h
    · cases h
      exact keeps_refl r
    · split at h
      · cases h
        exact keeps_consumptionChanged _ _ rfl rfl
      · cases h

theorem setBrightness_keeps (r r' : Room) (i br : Nat)
    (h : r.setBrightness i br = some r') : Keeps r r' := by
  unfold Room.setBrightness at h
  split at h
  · cases h
  · split at h
    · split_ifs at h
      · simp only at h
        split at h
        · cases h
          exact keeps_same _ _ rfl rfl
        · cases h
          exact keeps_consumptionChanged _ _ rfl rfl
        · cases h
      · cases h
        exact keeps_refl r
    · cases h

theorem run_keeps (op : Op) (r r' : Room) (h : op.run r = some r') : Keeps r r' := by
  cases op with
  | addAppliance app => exact addAppliance_keeps r r' app h
  | removeAppliance sn => exact removeAppliance_keeps r r' sn h
  | turnOn i =>
    simp only [Op.run, Option.map_eq_some'] at h
    obtain ⟨⟨b, r1⟩, h1, rfl⟩ := h
    exact turnOn_keeps r r1 i b h1
  | turnOff i =>
    simp only [Op.run, Option.map_eq_some'] at h
    obtain ⟨⟨b, r1⟩, h1, rfl⟩ := h
    exact turnOff_keeps r r1 i b h1
  | setBrightness i br => exact setBrightness_keeps r r' i br h
  | addForbidden t =>
    simp only [Op.run, Option.some.injEq] at h
    subst h
    exact keeps_same _ _ rfl rfl
  | clearForbidden t =>
    simp only [Op.run, Option.some.injEq] at h
    subst h
    exact keeps_same _ _ rfl rfl
  | setName name =>
    simp only [Op.run, Option.some.injEq] at h
    subst h
    exact keeps_same _ _ (by simp only [Room.setName]) (by simp only [Room.setName])

theorem sameFrame_refl (r : Room) : SameFrame r r := ⟨rfl, rfl, rfl, rfl, rfl, rfl⟩

theorem sameFrame_trans {r1 r2 r3 : Room} (h12 : SameFrame r1 r2) (h23 : SameFrame r2 r3) :
    SameFrame r1 r3 := by
  obtain ⟨a1, a2, a3, a4, a5, a6⟩ := h12
  obtain ⟨b1, b2, b3, b4, b5, b6⟩ := h23
  exact ⟨b1.trans a1, b2.trans a2, b3.trans a3, b4.trans a4, b5.trans a5, b6.trans a6⟩

/-- The two outcomes of an `addAppliance` that returns. -/
theorem addAppliance_some_cases (r r' : Room) (app : Appliance)
    (h : r.addAppliance app = some r') :
    (r.admits app = false ∧ r' = r) ∨
    (r.admits app = true ∧ r.getCurrentConsumption ≤ r.maxPower ∧ r.socketCnt < r.slots ∧
      r' = { r with sockets := r.sockets ++ [{ app.clone with source := Source.room }] }) := by
  by_cases hadm : r.admits app = true
  · right
    by_cases hc : r.getCurrentConsumption > r.maxPower
    · simp [Room.addAppliance, hadm, consumptionChanged_of_gt r hc, Room.socketCnt,
        Room.removeAllAppliances] at h
    · have hcc := consumptionChanged_of_le r (not_lt.mp hc)
      simp only [Room.addAppliance, hadm, hcc, if_true] at h
      split_ifs at h with hs
      simp only [Option.some.injEq] at h
      exact ⟨hadm, not_lt.mp hc, hs, h.symm⟩
  · left
    simp only [Bool.not_eq_true] at hadm
    simp only [Room.addAppliance, hadm, Bool.false_eq_true, if_false, Option.some.injEq] at h
    exact ⟨hadm, h.symm⟩

/-- The two outcomes of a `turnOn` that returns. -/
theorem turnOn_some_cases (r r' : Room) (i : Nat) (b : Bool)
    (h : r.turnOn i = some (b, r')) :
    (b = false ∧ r' = r) ∨
    (b = true ∧ ∃ a, r.sockets[i]? = some a ∧ a.isOn = false ∧ a.source = Source.room ∧
      r.getCurrentConsumption - a.getPower + Appliance.getPower { a with isOn := true }
        ≤ r.getMaxConsumption ∧
      r' = { r with sockets := r.sockets.set i { a with isOn := true } }) := by
  cases hx : r.sockets[i]? with
  | none => simp [Room.turnOn, hx] at h
  | some a =>
    by_cases h1 : (a.isOn || a.source == Source.null) = true
    · left
      simp only [Room.turnOn, hx, h1, if_true, Option.some.injEq, Prod.mk.injEq] at h
      exact ⟨h.1.symm, h.2.symm⟩
    · have hoff : a.isOn = false := by
        cases hon : a.isOn <;> simp_all
      by_cases h2 : a.source = Source.stale
      · simp [Room.turnOn, hx, hoff, h2] at h
      · have hsrc : a.source = Source.room := by
          cases hs : a.source <;> simp_all
        rw [turnOn_attached_off r i a hx hoff hsrc] at h
        split_ifs at h with hc
        · left
          simp only [Option.some.injEq, Prod.mk.injEq] at h
          exact ⟨h.1.symm, h.2.symm⟩
        · right
          simp only [Option.some.injEq, Prod.mk.injEq] at h
          exact ⟨h.1.symm, a, rfl, hoff, hsrc, not_lt.mp hc, h.2.symm⟩

theorem addAppliance_sameFrame (r r' : Room) (app : Appliance)
    (h : r.addAppliance app = some r') : SameFrame r r' := by
  rcases addAppliance_some_cases r r' app h with ⟨_, h1⟩ | ⟨_, _, _, h1⟩
  · rw [h1]
    exact sameFrame_refl r
  · rw [h1]
    exact ⟨rfl, rfl, rfl, rfl, rfl, rfl⟩

theorem turnOn_sameFrame (r r' : Room) (i : Nat) (b : Bool)
    (h : r.turnOn i = some (b, r')) : SameFrame r r' := by
  rcases turnOn_some_cases r r' i b h with ⟨_, h1⟩ | ⟨_, a, _, _, _, _, h1⟩
  · rw [h1]
    exact sameFrame_refl r
  · rw [h1]
    exact ⟨rfl, rfl, rfl, rfl, rfl, rfl⟩

theorem copyLoop_sameFrame (l : List Appliance) (r r' : Room) (i : Nat)
    (h : Room.copyLoop r l i = some r') : SameFrame r r' := by
  induction l generalizing r i with
  | nil =>
    simp only [Room.copyLoop, Option.some.injEq] at h
    subst h
    exact sameFrame_refl r
  | cons a rest ih =>
    simp only [Room.copyLoop] at h
    cases hadd : r.addAppliance a with
    | none => simp [hadd] at h
    | some r1 =>
      have h1 := addAppliance_sameFrame r r1 a hadd
      simp only [hadd] at h
      split_ifs at h with hon
      · cases hto : r1.turnOn i with
        | none => simp [hto] at h
        | some p =>
          obtain ⟨b, r2⟩ := p
          simp only [hto] at h
          exact sameFrame_trans (sameFrame_trans h1 (turnOn_sameFrame r1 r2 i b hto)) (ih r2 _ h)
      · exact sameFrame_trans h1 (ih r1 _ h)

/-- A copy-constructed room has the name, capacity, budget, tripped flag and
mask of the original, and an array of `maxSockets` entries. -/
theorem copy_frame (other c : Room) (h : other.copy = some c) :
    c.name = other.name ∧ c.maxSockets = other.maxSockets ∧ c.maxPower = other.maxPower ∧
      c.powerDown = other.powerDown ∧ c.forbidden = other.forbidden ∧
      c.slots = c.maxSockets := by
  unfold Room.copy at h
  simp only at h
  split_ifs at h with hm
  · obtain ⟨a1, a2, a3, a4, a5, a6⟩ := copyLoop_sameFrame _ _ _ _ h
    exact ⟨a1, a3, a4, a5, a6, a2.trans a3.symm⟩
  · simp only [Option.some.injEq] at h
    subst h
    simp only [ne_eq, not_not] at hm
    exact ⟨rfl, rfl, rfl, rfl, rfl, hm.symm⟩

theorem assign_powerDown (r other r' : Room) (h : r.assign other = some r') :
    r'.powerDown = other.powerDown := by
  unfold Room.assign at h
  cases hc : other.copy with
  | none => simp [hc] at h
  | some c =>
    simp only [hc, Option.some.injEq] at h
    subst h
    exact (copy_frame other c hc).2.2.2.1

/-- C7, counterexample: `overRoom` trips on `setBrightness(50)` of its TV; the
tripped room, assigned from the new room `Room("Hall", 1, 1)`, has its tripped
flag cleared. -/
theorem assign_clears_tripped_flag :
    overRoom.setBrightness 0 50 = some trippedRoom ∧ trippedRoom.powerDown = true ∧
      Room.mk? (some "Hall") 1 1 = some hallRoom ∧
      trippedRoom.assign hallRoom = some { hallRoom with maxSockets := 0 } ∧
      Room.powerDown { hallRoom with maxSockets := 0 } = false := by
  decide!

/-- C7, amended: `addAppliance`, `removeAppliance`, `turnOn`, `turnOff` and
`setBrightness` on a held appliance, `addForbidden`, `clearForbidden` and
`setName` leave a set tripped flag set and a capacity of zero at zero;
assignment from another room gives the room the tripped flag of that room. -/
theorem tripped_flag_kept (r r' : Room) (op : Op) (other : Room) :
    (r.powerDown = true → op.run r = some r' →
      r'.powerDown = true ∧ (r.maxSockets = 0 → r'.maxSockets = 0)) ∧
    (r.assign other = some r' → r'.powerDown = other.powerDown) := by
  refine ⟨fun ht hrun => ?_, assign_powerDown r other r'⟩
  have hk := run_keeps op r r' hrun
  exact ⟨hk.1 ht, hk.2⟩

theorem tripped_flag_kept_witness :
    (trippedRoom.powerDown = true ∧
      (Op.addForbidden ApplianceType.TV).run trippedRoom
        = some (trippedRoom.addForbidden ApplianceType.TV) ∧
      (trippedRoom.addForbidden ApplianceType.TV).powerDown = true ∧
      (trippedRoom.maxSockets = 0 → (trippedRoom.addForbidden ApplianceType.TV).maxSockets = 0)) ∧
    (hallRoom.assign trippedRoom = some { trippedRoom with maxSockets := 1 } ∧
      Room.powerDown { trippedRoom with maxSockets := 1 } = trippedRoom.powerDown) :=
  ⟨⟨rfl, rfl,
    (tripped_flag_kept trippedRoom (trippedRoom.addForbidden ApplianceType.TV)
      (Op.addForbidden ApplianceType.TV) hallRoom).1 rfl rfl⟩,
   ⟨by decide!,
    (tripped_flag_kept hallRoom { trippedRoom with maxSockets := 1 } (Op.setName none)
      trippedRoom).2 (by decide!)⟩⟩

theorem trippedEmpty_consumptionChanged (r : Room) (h : TrippedEmpty r) :
    TrippedEmpty r.consumptionChanged := by
  unfold Room.consumptionChanged
  simp only
  split_ifs
  · intro _
    rfl
  · exact h

theorem addAppliance_trippedEmpty (r r' : Room) (app : Appliance) (h : TrippedEmpty r)
    (hrun : r.addAppliance app = some r') : TrippedEmpty r' := by
  rcases addAppliance_some_cases r r' app hrun with ⟨_, h1⟩ | ⟨hadm, _, _, h1⟩
  · rw [h1]
    exact h
  · rw [h1]
    intro ht
    have := ((admits_iff r app).mp hadm).1
    simp_all

theorem turnOn_trippedEmpty (r r' : Room) (i : Nat) (b : Bool) (h : TrippedEmpty r)
    (hrun : r.turnOn i = some (b, r')) : TrippedEmpty r' := by
  rcases turnOn_some_cases r r' i b hrun with ⟨_, h1⟩ | ⟨_, a, _, _, _, _, h1⟩
  · rw [h1]
    exact h
  · rw [h1]
    intro ht
    simp [h ht]

theorem turnOff_trippedEmpty (r r' : Room) (i : Nat) (b : Bool) (h : TrippedEmpty r)
    (hrun : r.turnOff i = some (b, r')) : TrippedEmpty r' := by
  unfold Room.turnOff at hrun
  split at hrun
  · cases hrun
  · split_ifs at hrun
    · simp only [Option.some.injEq, Prod.mk.injEq] at hrun
      rw [← hrun.2]
      exact h
    · split at hrun
      · simp only [Option.some.injEq, Prod.mk.injEq] at hrun
        rw [← hrun.2]
        apply trippedEmpty_consumptionChanged
        intro ht
        simp [h ht]
      · cases hrun

theorem setBrightness_trippedEmpty (r r' : Room) (i br : Nat) (h : TrippedEmpty r)
    (hrun : r.setBrightness i br = some r') : TrippedEmpty r' := by
  unfold Room.setBrightness at hrun
  split at hrun
  · cases hrun
  · split at hrun
    · split_ifs at hrun
      · simp only at hrun
        split at hrun
        · simp only [Option.some.injEq] at hrun
          rw [← hrun]
          intro ht
          simp [h ht]
        · simp only [Option.some.injEq] at hrun
          rw [← hrun]
          apply trippedEmpty_consumptionChanged
          intro ht
          simp [h ht]
        · cases hrun
      · simp only [Option.some.injEq] at hrun
        rw [← hrun]
        exact h
    · cases hrun

theorem removeAppliance_trippedEmpty (r r' : Room) (sn : Option String) (h : TrippedEmpty r)
    (hrun : r.removeAppliance sn = some r') : TrippedEmpty r' := by
  unfold Room.removeAppliance at hrun
  simp only at hrun
  split_ifs at hrun with h1
  · split at hrun
    · split at hrun
      · simp only [Option.some.injEq] at hrun
        rw [← hrun]
        intro ht
        simp [h ht]
      · simp only [Option.some.injEq] at hrun
        rw [← hrun]
        apply trippedEmpty_consumptionChanged
        intro ht
        simp [h ht]
      · cases hrun
    · cases hrun
  · simp only [Option.some.injEq] at hrun
    rw [← hrun]
    exact h

theorem run_trippedEmpty (op : Op) (r r' : Room) (h : TrippedEmpty r)
    (hrun : op.run r = some r') : TrippedEmpty r' := by
  cases op with
  | addAppliance app => exact addAppliance_trippedEmpty r r' app h hrun
  | removeAppliance sn => exact removeAppliance_trippedEmpty r r' sn h hrun
  | turnOn i =>
    simp only [Op.run, Option.map_eq_some'] at hrun
    obtain ⟨⟨b, r1⟩, h1, rfl⟩ := hrun
    exact turnOn_trippedEmpty r r1 i b h h1
  | turnOff i =>
    simp only [Op.run, Option.map_eq_some'] at hrun
    obtain ⟨⟨b, r1⟩, h1, rfl⟩ := hrun
    exact turnOff_trippedEmpty r r1 i b h h1
  | setBrightness i br => exact setBrightness_trippedEmpty r r' i br h hrun
  | addForbidden t =>
    simp only [Op.run, Option.some.injEq] at hrun
    rw [← hrun]
    exact h
  | clearForbidden t =>
    simp only [Op.run, Option.some.injEq] at hrun
    rw [← hrun]
    exact h
  | setName name =>
    simp only [Op.run, Option.some.injEq] at hrun
    rw [← hrun]
    intro ht
    simp only [Room.setName] at ht ⊢
    exact h ht

theorem copyLoop_trippedEmpty (l : List Appliance) (r r' : Room) (i : Nat)
    (h : TrippedEmpty r) (hrun : Room.copyLoop r l i = some r') : TrippedEmpty r' := by
  induction l generalizing r i with
  | nil =>
    simp only [Room.copyLoop, Option.some.injEq] at hrun
    rw [← hrun]
    exact h
  | cons a rest ih =>
    simp only [Room.copyLoop] at hrun
    cases hadd : r.addAppliance a with
    | none => simp [hadd] at hrun
    | some r1 =>
      have h1 := addAppliance_trippedEmpty r r1 a h hadd
      simp only [hadd] at hrun
      split_ifs at hrun with hon
      · cases hto : r1.turnOn i with
        | none => simp [hto] at hrun
        | some p =>
          obtain ⟨b, r2⟩ := p
          simp only [hto] at hrun
          exact ih r2 _ (turnOn_trippedEmpty r1 r2 i b h1 hto) hrun
      · exact ih r1 _ h1 hrun

theorem copy_trippedEmpty (other c : Room) (h : other.copy = some c) : TrippedEmpty c := by
  unfold Room.copy at h
  simp only at h
  split_ifs at h with hm
  · exact copyLoop_trippedEmpty _ _ _ _ (fun _ => rfl) h
  · simp only [Option.some.injEq] at h
    rw [← h]
    intro _
    rfl

theorem mk_trippedEmpty (name : Option String) (sockets : Nat) (maxPower : ℚ) (r : Room)
    (h : Room.mk? name sockets maxPower = some r) : TrippedEmpty r := by
  unfold Room.mk? at h
  split_ifs at h
  simp only [Option.some.injEq] at h
  rw [← h]
  intro _
  simp only [Room.setName]

theorem reachable_trippedEmpty (r : Room) (h : Reachable r) : TrippedEmpty r := by
  induction h with
  | init name sockets maxPower r hmk => exact mk_trippedEmpty name sockets maxPower r hmk
  | step r op r' _ _ hrun ih => exact run_trippedEmpty op r r' ih hrun
  | copy r r' _ hrun _ => exact copy_trippedEmpty r r' hrun
  | assign r other r' _ _ hrun _ _ =>
    unfold Room.assign at hrun
    cases hc : other.copy with
    | none => simp [hc] at hrun
    | some c =>
      simp only [hc, Option.some.injEq] at hrun
      rw [← hrun]
      intro ht
      have hcs := copy_trippedEmpty other c hc ht
      simp [Room.swap, hcs]

theorem reachable_overRoom : Reachable overRoom :=
  Reachable.step emptyOverRoom (Op.addAppliance sampleTV) overRoom
    (Reachable.init _ _ _ _ mk_emptyOverRoom) sampleTV_wellFormed add_emptyOverRoom

theorem reachable_trippedRoom : Reachable trippedRoom :=
  Reachable.step overRoom (Op.setBrightness 0 50) trippedRoom reachable_overRoom trivial
    (by decide!)

/-- C8: in every reachable state whose tripped flag is set the held count is 0,
each `addAppliance` returns the room unchanged, and so does every sequence of
`addAppliance` calls: the count remains 0. -/
theorem tripped_room_stays_empty (r : Room) (h : Reachable r) (ht : r.powerDown = true) :
    r.socketCnt = 0 ∧ (∀ app, r.addAppliance app = some r) ∧
      ∀ apps, addAll r apps = some r := by
  have hempty : r.sockets = [] := reachable_trippedEmpty r h ht
  have hadd : ∀ app, r.addAppliance app = some r := by
    intro app
    simp [Room.addAppliance, Room.admits, ht]
  refine ⟨by simp [Room.socketCnt, hempty], hadd, ?_⟩
  intro apps
  induction apps with
  | nil => rfl
  | cons app rest ih => simp [addAll, hadd app, ih]

theorem tripped_room_stays_empty_witness :
    trippedRoom.powerDown = true ∧ trippedRoom.socketCnt = 0 ∧
      (∀ app, trippedRoom.addAppliance app = some trippedRoom) ∧
      ∀ apps, addAll trippedRoom apps = some trippedRoom :=
  ⟨rfl, tripped_room_stays_empty trippedRoom reachable_trippedRoom rfl⟩

theorem map_getSerial_set (l : List Appliance) (i : Nat) (a b : Appliance)
    (h : l[i]? = some a) (hsn : b.SN = a.SN) :
    (l.set i b).map Appliance.getSerial = l.map Appliance.getSerial := by
  induction l generalizing i with
  | nil => simp
  | cons c rest ih =>
    cases i with
    | zero =>
      simp only [List.getElem?_cons_zero, Option.some.injEq] at h
      subst h
      simp [Appliance.getSerial, hsn]
    | succ j =>
      simp only [List.getElem?_cons_succ] at h
      simp [ih j h]

theorem nodup_swap_remove (l : List Appliance) (pos : Nat) (last : Appliance)
    (hlast : l.getLast? = some last) (h : (l.map Appliance.getSerial).Nodup) :
    (((l.set pos last).dropLast).map Appliance.getSerial).Nodup := by
  obtain ⟨ys, rfl⟩ := List.getLast?_eq_some_iff.mp hlast
  rw [List.map_append, List.nodup_append] at h
  obtain ⟨hys, _, hdisj⟩ := h
  have hnot : last.getSerial ∉ ys.map Appliance.getSerial := by
    intro hmem
    exact hdisj hmem (by simp)
  rcases Nat.lt_or_ge pos ys.length with hlt | hge
  · rw [List.set_append_left _ _ hlt, List.dropLast_concat, List.map_set]
    exact List.Nodup.set hys hnot
  · rw [List.set_append_right _ _ hge]
    cases hp : pos - ys.length with
    | zero => simpa using hys
    | succ k => simpa using hys

theorem serialsDistinct_consumptionChanged (r : Room) (h : SerialsDistinct r) :
    SerialsDistinct r.consumptionChanged := by
  unfold Room.consumptionChanged
  simp only
  split_ifs
  · simp [SerialsDistinct, Room.removeAllAppliances]
  · exact h

theorem addAppliance_serialsDistinct (r r' : Room) (app : Appliance) (h : SerialsDistinct r)
    (hfresh : app.SN ∉ r.sockets.map Appliance.getSerial)
    (hrun : r.addAppliance app = some r') : SerialsDistinct r' := by
  rcases addAppliance_some_cases r r' app hrun with ⟨_, h1⟩ | ⟨_, _, _, h1⟩
  · rw [h1]
    exact h
  · rw [h1]
    unfold SerialsDistinct at h ⊢
    simp only [List.map_append, List.map_cons, List.map_nil]
    rw [List.nodup_append]
    refine ⟨h, by simp, ?_⟩
    intro x hx hx'
    simp only [List.mem_singleton] at hx'
    subst hx'
    exact hfresh hx

theorem turnOn_serialsDistinct (r r' : Room) (i : Nat) (b : Bool) (h : SerialsDistinct r)
    (hrun : r.turnOn i = some (b, r')) : SerialsDistinct r' := by
  rcases turnOn_some_cases r r' i b hrun with ⟨_, h1⟩ | ⟨_, a, ha, _, _, _, h1⟩
  · rw [h1]
    exact h
  · rw [h1]
    unfold SerialsDistinct
    simp only
    rw [map_getSerial_set _ _ a _ ha]
    · exact h
    · rfl

theorem turnOff_serialsDistinct (r r' : Room) (i : Nat) (b : Bool) (h : SerialsDistinct r)
    (hrun : r.turnOff i = some (b, r')) : SerialsDistinct r' := by
  unfold Room.turnOff at hrun
  split at hrun
  · cases hrun
  · rename_i a ha
    split_ifs at hrun
    · simp only [Option.some.injEq, Prod.mk.injEq] at hrun
      rw [← hrun.2]
      exact h
    · split at hrun
      · simp only [Option.some.injEq, Prod.mk.injEq] at hrun
        rw [← hrun.2]
        apply serialsDistinct_consumptionChanged
        unfold SerialsDistinct
        simp only
        rw [map_getSerial_set _ _ a _ ha]
        · exact h
        · rfl
      · cases hrun

theorem setBrightness_serialsDistinct (r r' : Room) (i br : Nat) (h : SerialsDistinct r)
    (hrun : r.setBrightness i br = some r') : SerialsDistinct r' := by
  unfold Room.setBrightness at hrun
  split at hrun
  · cases hrun
  · rename_i a ha
    have hset : SerialsDistinct
        { r with sockets := r.sockets.set i { a with variant := Variant.TV br } } := by
      unfold SerialsDistinct
      simp only
      rw [map_getSerial_set _ _ a _ ha]
      · exact h
      · rfl
    split at hrun
    · split_ifs at hrun
      · simp only at hrun
        split at hrun
        · simp only [Option.some.injEq] at hrun
          rw [← hrun]
          exact hset
        · simp only [Option.some.injEq] at hrun
          rw [← hrun]
          exact serialsDistinct_consumptionChanged _ hset
        · cases hrun
      · simp only [Option.some.injEq] at hrun
        rw [← hrun]
        exact h
    · cases hrun

theorem removeAppliance_serialsDistinct (r r' : Room) (sn : Option String)
    (h : SerialsDistinct r) (hrun : r.removeAppliance sn = some r') : SerialsDistinct r' := by
  unfold Room.removeAppliance at hrun
  simp only at hrun
  split_ifs at hrun with h1
  · split at hrun
    · rename_i toRemove last hrem hlast
      have hset : SerialsDistinct
          { r with sockets := (r.sockets.set (r.findApp sn) last).dropLast } :=
        nodup_swap_remove r.sockets (r.findApp sn) last hlast h
      split at hrun
      · simp only [Option.some.injEq] at hrun
        rw [← hrun]
        exact hset
      · simp only [Option.some.injEq] at hrun
        rw [← hrun]
        exact serialsDistinct_consumptionChanged _ hset
      · cases hrun
    · cases hrun
  · simp only [Option.some.injEq] at hrun
    rw [← hrun]
    exact h

theorem run_serialsDistinct (op : Op) (r r' : Room) (h : SerialsDistinct r)
    (hfresh : ∀ app, op = Op.addAppliance app → app.SN ∉ r.sockets.map Appliance.getSerial)
    (hrun : op.run r = some r') : SerialsDistinct r' := by
  cases op with
  | addAppliance app => exact addAppliance_serialsDistinct r r' app h (hfresh app rfl) hrun
  | removeAppliance sn => exact removeAppliance_serialsDistinct r r' sn h hrun
  | turnOn i =>
    simp only [Op.run, Option.map_eq_some'] at hrun
    obtain ⟨⟨b, r1⟩, h1, rfl⟩ := hrun
    exact turnOn_serialsDistinct r r1 i b h h1
  | turnOff i =>
    simp only [Op.run, Option.map_eq_some'] at hrun
    obtain ⟨⟨b, r1⟩, h1, rfl⟩ := hrun
    exact turnOff_serialsDistinct r r1 i b h h1
  | setBrightness i br => exact setBrightness_serialsDistinct r r' i br h hrun
  | addForbidden t =>
    simp only [Op.run, Option.some.injEq] at hrun
    rw [← hrun]
    exact h
  | clearForbidden t =>
    simp only [Op.run, Option.some.injEq] at hrun
    rw [← hrun]
    exact h
  | setName name =>
    simp only [Op.run, Option.some.injEq] at hrun
    rw [← hrun]
    unfold SerialsDistinct at h ⊢
    simp only [Room.setName]
    exact h

theorem mk_emptySampleRoom :
    Room.mk? (some "Bedroom") 5 (21 / 10) = some emptySampleRoom := by
  decide!

theorem add_emptySampleRoom : emptySampleRoom.addAppliance sampleHeater = some sampleRoom := by
  decide!

theorem add_sampleRoom_tv : sampleRoom.addAppliance sampleTV = some twoRoom := by
  decide!

theorem add_sampleRoom_heater : sampleRoom.addAppliance sampleHeater = some dupRoom := by
  decide!

/-- C9, counterexample: the room `Room("Bedroom", 5, 2.1f)` that holds the heater
of `main` admits the same heater a second time; the room reached holds two
appliances with the serial number "P MH140-7765d". -/
theorem duplicate_serial_admitted :
    ReachableVia basicCall dupRoom ∧
      sampleHeater.SN ∈ sampleRoom.sockets.map Appliance.getSerial ∧
      sampleRoom.addAppliance sampleHeater = some dupRoom ∧
      dupRoom.sockets.map Appliance.getSerial = ["P MH140-7765d", "P MH140-7765d"] ∧
      ¬ (dupRoom.sockets.map Appliance.getSerial).Nodup := by
  refine ⟨?_, by decide, add_sampleRoom_heater, by decide, by decide⟩
  exact ReachableVia.step sampleRoom (Op.addAppliance sampleHeater) dupRoom
    (ReachableVia.step emptySampleRoom (Op.addAppliance sampleHeater) sampleRoom
      (ReachableVia.init _ _ _ _ mk_emptySampleRoom)
      ⟨sampleHeater_wellFormed, trivial⟩ add_emptySampleRoom)
    ⟨sampleHeater_wellFormed, trivial⟩ add_sampleRoom_heater

/-- C9, amended: in every state reached from a newly constructed room by calls
in which each `addAppliance` passes an appliance whose serial number no held
appliance has, no two held appliances have the same serial number. -/
theorem serials_distinct_of_fresh_adds (r : Room) (h : ReachableVia freshCall r) :
    (r.sockets.map Appliance.getSerial).Nodup := by
  induction h with
  | init name sockets maxPower r hmk =>
    unfold Room.mk? at hmk
    split_ifs at hmk
    simp only [Option.some.injEq] at hmk
    rw [← hmk]
    simp [Room.setName]
  | step r op r' _ hok hrun ih => exact run_serialsDistinct op r r' ih hok.2 hrun

theorem serials_distinct_of_fresh_adds_witness :
    ReachableVia freshCall twoRoom ∧ (twoRoom.sockets.map Appliance.getSerial).Nodup :=
  have hreach : ReachableVia freshCall twoRoom :=
    ReachableVia.step sampleRoom (Op.addAppliance sampleTV) twoRoom
      (ReachableVia.step emptySampleRoom (Op.addAppliance sampleHeater) sampleRoom
        (ReachableVia.init _ _ _ _ mk_emptySampleRoom)
        ⟨sampleHeater_wellFormed, fun app happ => by cases happ; decide⟩ add_emptySampleRoom)
      ⟨sampleTV_wellFormed, fun app happ => by cases happ; decide⟩ add_sampleRoom_tv
  ⟨hreach, serials_distinct_of_fresh_adds twoRoom hreach⟩

theorem reachable_twoRoom : Reachable twoRoom :=
  Reachable.step sampleRoom (Op.addAppliance sampleTV) twoRoom
    (Reachable.step emptySampleRoom (Op.addAppliance sampleHeater) sampleRoom
      (Reachable.init _ _ _ _ mk_emptySampleRoom) sampleHeater_wellFormed add_emptySampleRoom)
    sampleTV_wellFormed add_sampleRoom_tv

theorem reachable_hallRoom : Reachable hallRoom :=
  Reachable.init (some "Hall") 1 1 hallRoom (by decide!)

/-- C10, at the failing input: after `hall = bedroom`, where `hall` was made with
one socket and `bedroom` (five sockets) holds the heater and the TV of `main`,
the room `hall` holds both appliances but still has `maxSockets == 1`; for the
serial "nope", which no held appliance has, `findApp` returns 1, so `operator[]`
returns the TV in `sockets[1]` instead of null, and `operator-=` takes the
removal path on that TV. -/
theorem lookup_unknown_serial_after_assign :
    Reachable hallAssigned ∧ hallRoom.assign twoRoom = some hallAssigned ∧
      "nope" ∉ hallAssigned.sockets.map Appliance.getSerial ∧
      hallAssigned.findApp (some "nope") = 1 ∧
      hallAssigned.lookup (some "nope") = some { sampleTV with source := Source.stale } ∧
      hallAssigned.removeAppliance (some "nope") ≠ some hallAssigned := by
  have hassign : hallRoom.assign twoRoom = some hallAssigned := by decide!
  exact ⟨Reachable.assign hallRoom twoRoom hallAssigned reachable_hallRoom reachable_twoRoom
    hassign, hassign, by decide, by decide, by decide!, by decide!⟩

theorem badText_iff (s : Option String) :
    Appliance.badText s = true ↔ (s = none ∨ s = some "") := by
  cases s with
  | none => simp [Appliance.badText]
  | some t => simp [Appliance.badText, String.isEmpty_iff]

theorem mk?_eq_none_iff (v : Variant) (br mod sn : Option String) (power : ℚ) :
    Appliance.mk? v br mod sn power = none ↔
      (br = none ∨ br = some "") ∨ (mod = none ∨ mod = some "") ∨
        (sn = none ∨ sn = some "") ∨ power ≤ 0 := by
  unfold Appliance.mk?
  rw [← badText_iff, ← badText_iff, ← badText_iff]
  split_ifs with h
  · simp only [Bool.or_eq_true, decide_eq_true_eq] at h
    simp only [true_iff]
    tauto
  · simp only [Bool.or_eq_true, decide_eq_true_eq] at h
    simp only [false_iff, reduceCtorEq]
    tauto

theorem mk?_eq_some (v : Variant) (br mod sn : Option String) (power : ℚ) (a : Appliance)
    (h : Appliance.mk? v br mod sn power = some a) :
    some a.brand = br ∧ some a.model = mod ∧ some a.SN = sn ∧ a.variant = v ∧
      a.consumption = power ∧ a.isOn = false ∧ a.source = Source.null := by
  unfold Appliance.mk? at h
  split_ifs at h with hbad
  simp only [Bool.or_eq_true, decide_eq_true_eq, not_or] at hbad
  obtain ⟨⟨⟨h1, h2⟩, h3⟩, _⟩ := hbad
  simp only [Option.some.injEq] at h
  subst h
  cases br with
  | none => simp [Appliance.badText] at h1
  | some b =>
    cases mod with
    | none => simp [Appliance.badText] at h2
    | some m =>
      cases sn with
      | none => simp [Appliance.badText] at h3
      | some n => simp

/-- C15: constructing an appliance fails exactly when the brand, the model or the
serial number is null or empty or the rated power is at most 0, and for a TV
also when the initial brightness is above 100; an appliance that was constructed
stores the given brand, model, serial number, kind, rated power (and brightness
or compressor count), is off and has no source. -/
theorem construction_fails_iff (br mod sn : Option String) (power : ℚ) (n : Nat) :
    (Appliance.mkHeater br mod sn power = none ↔
      ((br = none ∨ br = some "") ∨ (mod = none ∨ mod = some "") ∨
        (sn = none ∨ sn = some "") ∨ power ≤ 0)) ∧
    (Appliance.mkTV br mod sn power n = none ↔
      (((br = none ∨ br = some "") ∨ (mod = none ∨ mod = some "") ∨
        (sn = none ∨ sn = some "") ∨ power ≤ 0) ∨ n > 100)) ∧
    (Appliance.mkFridge br mod sn power n = none ↔
      ((br = none ∨ br = some "") ∨ (mod = none ∨ mod = some "") ∨
        (sn = none ∨ sn = some "") ∨ power ≤ 0)) ∧
    (∀ a, Appliance.mkHeater br mod sn power = some a →
      (some a.brand = br ∧ some a.model = mod ∧ some a.SN = sn ∧ a.consumption = power ∧
        a.isOn = false ∧ a.source = Source.null) ∧
      a.getType = ApplianceType.Heater) ∧
    (∀ a, Appliance.mkTV br mod sn power n = some a →
      (some a.brand = br ∧ some a.model = mod ∧ some a.SN = sn ∧ a.consumption = power ∧
        a.isOn = false ∧ a.source = Source.null) ∧
      a.getType = ApplianceType.TV ∧ a.variant = Variant.TV n) ∧
    (∀ a, Appliance.mkFridge br mod sn power n = some a →
      (some a.brand = br ∧ some a.model = mod ∧ some a.SN = sn ∧ a.consumption = power ∧
        a.isOn = false ∧ a.source = Source.null) ∧
      a.getType = ApplianceType.Fridge ∧ a.variant = Variant.Fridge n) := by
  have htv : ∀ a, Appliance.mkTV br mod sn power n = some a →
      Appliance.mk? (Variant.TV n) br mod sn power = some a := by
    intro a h
    unfold Appliance.mkTV at h
    split at h
    · cases h
    · split_ifs at h
      simp only [Option.some.injEq] at h
      subst h
      assumption
  refine ⟨mk?_eq_none_iff _ _ _ _ _, ?_, mk?_eq_none_iff _ _ _ _ _, ?_, ?_, ?_⟩
  · rw [← mk?_eq_none_iff (Variant.TV n)]
    unfold Appliance.mkTV
    split
    · rename_i h
      simp [h]
    · rename_i a h
      split_ifs with hb
      · simp [hb]
      · simp [h, hb]
  · intro a h
    obtain ⟨h1, h2, h3, h4, h5, h6, h7⟩ := mk?_eq_some _ _ _ _ _ a h
    exact ⟨⟨h1, h2, h3, h5, h6, h7⟩, by simp [Appliance.getType, h4]⟩
  · intro a h
    obtain ⟨h1, h2, h3, h4, h5, h6, h7⟩ := mk?_eq_some _ _ _ _ _ a (htv a h)
    exact ⟨⟨h1, h2, h3, h5, h6, h7⟩, by simp [Appliance.getType, h4], h4⟩
  · intro a h
    obtain ⟨h1, h2, h3, h4, h5, h6, h7⟩ := mk?_eq_some _ _ _ _ _ a h
    exact ⟨⟨h1, h2, h3, h5, h6, h7⟩, by simp [Appliance.getType, h4], h4⟩

theorem construction_fails_iff_witness :
    Appliance.mkTV (some "Sony") (some "Mony") (some "SN123") (1 / 4) 100 = some sampleTV ∧
      ((some sampleTV.brand = some "Sony" ∧ some sampleTV.model = some "Mony" ∧
        some sampleTV.SN = some "SN123" ∧ sampleTV.consumption = 1 / 4 ∧
        sampleTV.isOn = false ∧ sampleTV.source = Source.null) ∧
      sampleTV.getType = ApplianceType.TV ∧ sampleTV.variant = Variant.TV 100) :=
  ⟨by decide!,
   (construction_fails_iff (some "Sony") (some "Mony") (some "SN123") (1 / 4) 100).2.2.2.2.1
     sampleTV (by decide!)⟩

/-- C16: for every appliance `x`, of any variant, on or off, with any source,
`x.clone()` has the brand, model, serial number, kind, rated power and variant
data (brightness, compressor count) of `x`, is off and has no source.  The
function reads `x` only, so `x` itself is unchanged. -/
theorem clone_round_trip (x : Appliance) :
    x.clone.brand = x.brand ∧ x.clone.model = x.model ∧ x.clone.SN = x.SN ∧
      x.clone.getType = x.getType ∧ x.clone.consumption = x.consumption ∧
      x.clone.variant = x.variant ∧ x.clone.isOn = false ∧ x.clone.source = Source.null :=
  ⟨rfl, rfl, rfl, rfl, rfl, rfl, rfl, rfl⟩

/-- C18, counterexample: `Fridge("Polar", "Frost", "FR-0", 0.3f, 0)` is constructed,
with compressor count 0, and draws 0 when on. -/
theorem fridge_zero_compressors_constructed :
    Appliance.mkFridge (some "Polar") (some "Frost") (some "FR-0") (3 / 10) 0
        = some sampleFridge0 ∧
      sampleFridge0.variant = Variant.Fridge 0 ∧
      Appliance.getPower { sampleFridge0 with isOn := true } = 0 := by
  refine ⟨by decide!, rfl, ?_⟩
  norm_num [Appliance.getPower, sampleFridge0]

/-- C18, amended: the constructor of a fridge does not check the compressor
count.  Whether it fails depends on the texts and the rated power only; a fridge
constructed with count `n` has count `n` and draws `n` times its rated power
when on, which is strictly positive exactly when `n` is at least 1. -/
theorem fridge_compressor_count_unchecked (br mod sn : Option String) (power : ℚ)
    (n : Nat) :
    (Appliance.mkFridge br mod sn power n = none ↔
      Appliance.mkFridge br mod sn power 1 = none) ∧
    (∀ a, Appliance.mkFridge br mod sn power n = some a →
      a.variant = Variant.Fridge n ∧
      Appliance.getPower { a with isOn := true } = n * power ∧
      (0 < Appliance.getPower { a with isOn := true } ↔ 1 ≤ n)) := by
  constructor
  · unfold Appliance.mkFridge
    rw [mk?_eq_none_iff, mk?_eq_none_iff]
  · intro a h
    have hpos : 0 < power := by
      by_contra hn
      have hfail := (mk?_eq_none_iff (Variant.Fridge n) br mod sn power).mpr
        (Or.inr (Or.inr (Or.inr (not_lt.mp hn))))
      unfold Appliance.mkFridge at h
      rw [hfail] at h
      cases h
    obtain ⟨_, _, _, hv, hc, _, _⟩ := mk?_eq_some _ _ _ _ _ a h
    have hp : Appliance.getPower { a with isOn := true } = n * power := by
      simp [Appliance.getPower, hv, hc]
    refine ⟨hv, hp, ?_⟩
    rw [hp]
    constructor
    · intro h0
      by_contra hn
      have hz : n = 0 := by omega
      simp [hz] at h0
    · intro h1
      have : (0 : ℚ) < n := by exact_mod_cast h1
      positivity

theorem fridge_compressor_count_unchecked_witness :
    Appliance.mkFridge (some "Polar") (some "Frost") (some "FR-0") (3 / 10) 0
        = some sampleFridge0 ∧
      (sampleFridge0.variant = Variant.Fridge 0 ∧
      Appliance.getPower { sampleFridge0 with isOn := true } = (0 : Nat) * (3 / 10) ∧
      (0 < Appliance.getPower { sampleFridge0 with isOn := true } ↔ 1 ≤ 0)) :=
  ⟨by decide!,
   (fridge_compressor_count_unchecked (some "Polar") (some "Frost") (some "FR-0") (3 / 10) 0).2
     sampleFridge0 (by decide!)⟩

/-- C19: with power values as exact numbers, when `turnOn` on an off appliance
in `sockets[i]` of a room that is not tripped returns `true`, the notification
does not trip the room: the room afterwards is the room before with that
appliance switched on, so it is not tripped, holds the same appliances, every
other appliance is as before, and its total draw is the old total minus the off
draw plus the on draw of the appliance, which is at most the budget. -/
theorem turnOn_true_does_not_trip (r r' : Room) (i : Nat) (a : Appliance)
    (h : r.sockets[i]? = some a) (_hoff : a.isOn = false) (hnt : r.powerDown = false)
    (hrun : r.turnOn i = some (true, r')) :
    r' = { r with sockets := r.sockets.set i { a with isOn := true } } ∧
      r'.consumptionChanged = r' ∧ r'.powerDown = false ∧
      r'.socketCnt = r.socketCnt ∧
      (∀ j, j ≠ i → r'.sockets[j]? = r.sockets[j]?) ∧
      r'.sockets[i]? = some { a with isOn := true } ∧
      r'.getCurrentConsumption
        = r.getCurrentConsumption - a.getPower + Appliance.getPower { a with isOn := true } ∧
      r'.getCurrentConsumption ≤ r'.getMaxConsumption := by
  rcases turnOn_some_cases r r' i true hrun with ⟨hf, _⟩ | ⟨_, a', ha', _, _, hle, hr'⟩
  · cases hf
  · rw [h] at ha'
    simp only [Option.some.injEq] at ha'
    subst ha'
    have htot := getCurrentConsumption_set r i a { a with isOn := true } h
    have hi : i < r.sockets.length := by
      rcases Nat.lt_or_ge i r.sockets.length with hlt | hge
      · exact hlt
      · rw [List.getElem?_eq_none hge] at h
        cases h
    subst hr'
    refine ⟨rfl, ?_, hnt, by simp [Room.socketCnt], ?_, ?_, htot, ?_⟩
    · apply consumptionChanged_of_le
      rw [htot]
      exact hle
    · intro j hj
      simp [List.getElem?_set, Ne.symm hj]
    · simp [List.getElem?_set, hi]
    · rw [htot]
      exact hle

theorem turnOn_true_does_not_trip_witness :
    sampleRoom.turnOn 0 = some (true, sampleRoomOn) ∧
      (sampleRoomOn = { sampleRoom with
          sockets := sampleRoom.sockets.set 0
            { sampleHeater with source := Source.room, isOn := true } } ∧
      sampleRoomOn.consumptionChanged = sampleRoomOn ∧ sampleRoomOn.powerDown = false ∧
      sampleRoomOn.socketCnt = sampleRoom.socketCnt ∧
      (∀ j, j ≠ 0 → sampleRoomOn.sockets[j]? = sampleRoom.sockets[j]?) ∧
      sampleRoomOn.sockets[0]? = some { sampleHeater with source := Source.room, isOn := true } ∧
      sampleRoomOn.getCurrentConsumption
        = sampleRoom.getCurrentConsumption
          - Appliance.getPower { sampleHeater with source := Source.room }
          + Appliance.getPower { sampleHeater with source := Source.room, isOn := true } ∧
      sampleRoomOn.getCurrentConsumption ≤ sampleRoomOn.getMaxConsumption) :=
  ⟨by decide!,
   turnOn_true_does_not_trip sampleRoom sampleRoomOn 0 { sampleHeater with source := Source.room }
     rfl rfl rfl (by decide!)⟩

/-- The result of `turnOff` on a held appliance that is on and attached to its room. -/
theorem turnOff_attached_on (r : Room) (i : Nat) (a : Appliance)
    (h : r.sockets[i]? = some a) (hon : a.isOn = true) (hsrc : a.source = Source.room) :
    r.turnOff i = some (true,
      Room.consumptionChanged { r with sockets := r.sockets.set i { a with isOn := false } }) := by
  simp [Room.turnOff, h, hon, hsrc]

theorem dimTV_wellFormed : dimTV.wellFormed := by
  refine ⟨by decide, by decide, by decide, by norm_num [dimTV, sampleTV], ?_⟩
  intro b hb
  simp [dimTV, sampleTV] at hb
  omega

theorem reachable_denRoom : ReachableVia basicCall denRoom :=
  ReachableVia.step denRoom3 (Op.turnOn 1) denRoom
    (ReachableVia.step denRoom2 (Op.addAppliance sampleHeater) denRoom3
      (ReachableVia.step denRoom1 (Op.turnOn 0) denRoom2
        (ReachableVia.step denRoom0 (Op.addAppliance dimTV) denRoom1
          (ReachableVia.init (some "Den") 2 2 denRoom0 (by decide!))
          ⟨dimTV_wellFormed, trivial⟩ (by decide!))
        ⟨trivial, trivial⟩ (by decide!))
      ⟨sampleHeater_wellFormed, trivial⟩ (by decide!))
    ⟨trivial, trivial⟩ (by decide!)

/-- C20, counterexample: the room `Room("Den", 2, 2)` holds a TV of brightness 0
and a heater rated 2, both on; it is not tripped and draws 0 + 2, its budget.
`turnOff` on the TV returns `true`, the draw becomes 1/20 + 2, and the room
trips. -/
theorem turnOff_dim_tv_trips :
    ReachableVia basicCall denRoom ∧ denRoom.powerDown = false ∧
      denRoom.getCurrentConsumption = 2 ∧ denRoom.getMaxConsumption = 2 ∧
      denRoom.turnOff 0 = some (true, denTripped) ∧
      denTripped.powerDown = true ∧ denTripped.sockets = [] := by
  refine ⟨reachable_denRoom, rfl, ?_, rfl, by decide!, rfl, rfl⟩
  norm_num [getCurrentConsumption_eq_sum, denRoom, denRoom0, dimTV, sampleTV, sampleHeater,
    Appliance.getPower]

/-- C20, amended: for an on appliance held in `sockets[i]` of a room that is not
tripped and within budget, and attached to it, `turnOff` returns `true`; when the
appliance draws no more off than on, the room afterwards is the room before with
that appliance switched off, its total draw is no greater than before, and it is
not tripped.  A heater or a fridge of non-negative rated power draws no more off
than on; a TV does exactly when rated power * brightness / 100 is at least the
standby 1/20. -/
theorem turnOff_within_budget (r : Room) (i : Nat) (a : Appliance)
    (h : r.sockets[i]? = some a) (hon : a.isOn = true) (hsrc : a.source = Source.room)
    (hnt : r.powerDown = false) (hbudget : r.getCurrentConsumption ≤ r.getMaxConsumption) :
    (∃ r', r.turnOff i = some (true, r') ∧
      (Appliance.getPower { a with isOn := false } ≤ a.getPower →
        r' = { r with sockets := r.sockets.set i { a with isOn := false } } ∧
        r'.getCurrentConsumption ≤ r.getCurrentConsumption ∧
        r'.powerDown = false ∧ r'.socketCnt = r.socketCnt ∧
        (∀ j, j ≠ i → r'.sockets[j]? = r.sockets[j]?))) ∧
    ((a.variant = Variant.Heater ∨ ∃ n, a.variant = Variant.Fridge n) → 0 ≤ a.consumption →
      Appliance.getPower { a with isOn := false } ≤ a.getPower) ∧
    (∀ b, a.variant = Variant.TV b →
      (Appliance.getPower { a with isOn := false } ≤ a.getPower ↔
        1 / 20 ≤ a.consumption * b / 100)) := by
  refine ⟨⟨_, turnOff_attached_on r i a h hon hsrc, ?_⟩, ?_, ?_⟩
  · intro hdraw
    have htot := getCurrentConsumption_set r i a { a with isOn := false } h
    have hle : Room.getCurrentConsumption
        { r with sockets := r.sockets.set i { a with isOn := false } }
        ≤ r.getCurrentConsumption := by
      rw [htot]
      linarith
    have hcc := consumptionChanged_of_le
      { r with sockets := r.sockets.set i { a with isOn := false } }
      (le_trans hle hbudget)
    rw [hcc]
    refine ⟨rfl, hle, hnt, by simp [Room.socketCnt], ?_⟩
    intro j hj
    simp [List.getElem?_set, Ne.symm hj]
  · intro hv hc
    rcases hv with hv | ⟨n, hv⟩
    · simp [Appliance.getPower, hv, hon, hc]
    · simp only [Appliance.getPower, hv, hon, if_true]
      simp only [Bool.false_eq_true, if_false]
      positivity
  · intro b hv
    simp [Appliance.getPower, hv, hon]

theorem turnOff_within_budget_witness :
    ∃ r', sampleRoomOn.turnOff 0 = some (true, r') ∧
      (Appliance.getPower { sampleHeater with source := Source.room, isOn := false }
          ≤ Appliance.getPower { sampleHeater with source := Source.room, isOn := true } →
        r' = { sampleRoomOn with
          sockets := sampleRoomOn.sockets.set 0
            { sampleHeater with source := Source.room, isOn := false } } ∧
        r'.getCurrentConsumption ≤ sampleRoomOn.getCurrentConsumption ∧
        r'.powerDown = false ∧ r'.socketCnt = sampleRoomOn.socketCnt ∧
        (∀ j, j ≠ 0 → r'.sockets[j]? = sampleRoomOn.sockets[j]?)) :=
  (turnOff_within_budget sampleRoomOn 0 { sampleHeater with source := Source.room, isOn := true }
    rfl rfl rfl rfl
    (by norm_num [getCurrentConsumption_eq_sum, Room.getMaxConsumption, sampleRoomOn,
      sampleRoom, sampleHeater, Appliance.getPower])).1

/-- C12, at the failing input: after `hall = bedroom`, where `hall` was made with
one socket and `bedroom` has five sockets and holds two appliances, the room
`hall` has `maxSockets == 1`, while the copy-constructed `Room(bedroom)` has
`maxSockets == 5`; the appliances of `hall` point to the destroyed temporary,
while those of `Room(bedroom)` point to that room. -/
theorem assign_differs_from_copy :
    hallRoom.assign twoRoom = some hallAssigned ∧ twoRoom.copy = some twoRoom ∧
      hallAssigned.maxSockets = 1 ∧ twoRoom.maxSockets = 5 ∧
      hallAssigned.socketCnt = 2 ∧
      hallAssigned.sockets.map Appliance.source = [Source.stale, Source.stale] ∧
      twoRoom.sockets.map Appliance.source = [Source.room, Source.room] ∧
      hallAssigned ≠ twoRoom := by
  refine ⟨by decide!, by decide!, rfl, rfl, rfl, rfl, rfl, ?_⟩
  intro h
  have hm := congrArg Room.maxSockets h
  simp [hallAssigned, twoRoom, sampleRoom] at hm

theorem copied_getPower (a : Appliance) : a.copied.getPower = a.getPower := rfl

theorem rounded_getPower_id (a : Appliance) : Rounded.getPower id a = a.getPower := by
  unfold Rounded.getPower Appliance.getPower
  split <;> simp

theorem rounded_getCurrentConsumption_id (r : Room) :
    Rounded.getCurrentConsumption id r = r.getCurrentConsumption := by
  unfold Rounded.getCurrentConsumption Room.getCurrentConsumption
  simp only [rounded_getPower_id, id]

theorem rounded_consumptionChanged_id (r : Room) :
    Rounded.consumptionChanged id r = r.consumptionChanged := by
  unfold Rounded.consumptionChanged Room.consumptionChanged
  simp only [rounded_getCurrentConsumption_id]

theorem rounded_addAppliance_id (r : Room) (app : Appliance) :
    Rounded.addAppliance id r app = r.addAppliance app := by
  unfold Rounded.addAppliance Room.addAppliance
  simp only [rounded_consumptionChanged_id]

theorem rounded_turnOn_id (r : Room) (i : Nat) : Rounded.turnOn id r i = r.turnOn i := by
  unfold Rounded.turnOn Room.turnOn
  simp only [rounded_consumptionChanged_id, rounded_getCurrentConsumption_id,
    rounded_getPower_id, id]

theorem rounded_copyLoop_id (l : List Appliance) (r : Room) (i : Nat) :
    Rounded.copyLoop id r l i = Room.copyLoop r l i := by
  induction l generalizing r i with
  | nil => rfl
  | cons a rest ih =>
    simp only [Rounded.copyLoop, Room.copyLoop, rounded_addAppliance_id, rounded_turnOn_id, ih]

/-- Without rounding the functions of `Rounded` are those of `Room`. -/
theorem rounded_copy_id (r : Room) : Rounded.copy id r = r.copy := by
  unfold Rounded.copy Room.copy Rounded.copyAppliances Room.copyAppliances
  simp only [rounded_copyLoop_id]

end Kontrolno2
